import Mathlib

/-!
# Verification of the RPG-JS map/GUI core

Shallow embedding of the spatial/tile model (`RpgCommonMap`) and the GUI
session state machine (`Gui`) of the RPG-JS common package, together with
proofs of the specified properties.

JavaScript numbers are modelled as rationals (`ℚ`); `undefined` values are
modelled with `Option`; in-place mutation is modelled by explicit state
passing.
-/

namespace RpgJS

/-- JavaScript numbers, modelled as rationals. -/
abbrev Num := ℚ

/-- Per-cell tile properties (`_tiles.properties` in the source):
optional `collision`, `overlay`, `climb` flags and an optional `z` depth. -/
structure TileProps where
  collision : Option Bool := none
  overlay : Option Bool := none
  climb : Option Bool := none
  z : Option Num := none
deriving Repr, DecidableEq

/-- A tile cell of a tile layer: its properties and its object groups.
Object groups are modelled as opaque identifiers. -/
structure Cell where
  properties : TileProps := {}
  objectGroups : List Nat := []
deriving Repr, DecidableEq

/-- Layer-level properties (`layer.properties`): the optional `z` depth. -/
structure LayerProps where
  z : Option Num := none
deriving Repr, DecidableEq

/-- Shape properties (`properties` of a raw object / shape): the optional
`z` depth, and opaque further keys. -/
structure ShapeProps where
  z : Option Num := none
  extra : List (String × String) := []
deriving Repr, DecidableEq

/-- A raw shape definition (`HitObject` in the source): position, size,
optional name and optional properties. -/
structure HitObject where
  x : Num := 0
  y : Num := 0
  width : Num := 0
  height : Num := 0
  name : Option String := none
  properties : Option ShapeProps := none
deriving Repr, DecidableEq

/-- A layer of the map document: a `type` tag (`"tile"` or `"object"`),
layer properties, the dense per-index cell array of a tile layer
(`none` entries model holes / `undefined`), and the object list of an
object layer. -/
structure Layer where
  type : String
  properties : LayerProps := {}
  tiles : List (Option Cell) := []
  objects : List HitObject := []
deriving Repr, DecidableEq

/-- Axis-aligned rectangle used as a shape's hitbox. -/
structure Hitbox where
  x : Num
  y : Num
  width : Num
  height : Num
deriving Repr, DecidableEq

/-- Modelled from the spec: the `RpgShape` class (file `Shape.ts`, not in
src/) wraps a raw object and exposes its `name`, its `hitbox` rectangle
derived from `x, y, width, height`, and its `properties`. -/
structure RpgShape where
  name : String
  hitbox : Hitbox
  properties : ShapeProps
deriving Repr, DecidableEq

/-- The map state (`RpgCommonMap`): grid geometry, the ordered layer list
and the shape registry.  `uidSeed` is the explicit state of the
unique-name generator (see `generateUID`). -/
structure RpgCommonMap where
  width : Num := 0
  height : Num := 0
  tileWidth : Num := 0
  tileHeight : Num := 0
  layers : List Layer := []
  shapes : List RpgShape := []
  uidSeed : Nat := 0
deriving Repr, DecidableEq

/-- A raw map document, input of `load`. -/
structure MapData where
  width : Num
  height : Num
  tileWidth : Num
  tileHeight : Num
  layers : List Layer
deriving Repr, DecidableEq

/-- `map.widthPx = width * tileWidth`. -/
def RpgCommonMap.widthPx (m : RpgCommonMap) : Num :=
  m.width * m.tileWidth

/-- `map.heightPx = height * tileHeight`. -/
def RpgCommonMap.heightPx (m : RpgCommonMap) : Num :=
  m.height * m.tileHeight

/-- `map.zTileHeight`: the vertical unit, equal to the tile height. -/
def RpgCommonMap.zTileHeight (m : RpgCommonMap) : Num :=
  m.tileHeight

/-- `getTileIndex(x, y, [z] = [0])`:
`width * Math.floor((y - z) / tileHeight) + Math.floor(x / tileWidth)`. -/
def RpgCommonMap.getTileIndex (m : RpgCommonMap) (x y : Num) (z : Num := 0) : Num :=
  m.width * (⌊(y - z) / m.tileHeight⌋ : ℤ) + (⌊x / m.tileWidth⌋ : ℤ)

/-- `getTileOriginPosition(x, y)`: top-left pixel corner of the tile
containing `(x, y)`. -/
def RpgCommonMap.getTileOriginPosition (m : RpgCommonMap) (x y : Num) : Num × Num :=
  ((⌊x / m.tileWidth⌋ : ℤ) * m.tileWidth, (⌊y / m.tileHeight⌋ : ℤ) * m.tileHeight)

/-- Flooring is idempotent across the origin snap: for `t > 0`,
`⌊(⌊q/t⌋ * t) / t⌋ = ⌊q/t⌋`. -/
lemma floor_snap_div {q t : ℚ} (ht : 0 < t) :
    (⌊((⌊q / t⌋ : ℤ) * t : ℚ) / t⌋ : ℤ) = ⌊q / t⌋ := by
  rw [mul_div_assoc, div_self (ne_of_gt ht), mul_one, Int.floor_intCast]

/-- C4: for every in-range pixel position on a map with positive tile
dimensions, re-indexing the tile origin of the position gives the same
tile index as indexing the position itself (both with z offset 0). -/
theorem getTileIndex_origin_roundtrip (m : RpgCommonMap) (x y : Num)
    (htw : 0 < m.tileWidth) (hth : 0 < m.tileHeight)
    (hx0 : 0 ≤ x) (hx1 : x < m.widthPx) (hy0 : 0 ≤ y) (hy1 : y < m.heightPx) :
    m.getTileIndex (m.getTileOriginPosition x y).1 (m.getTileOriginPosition x y).2 0
      = m.getTileIndex x y 0 := by
  unfold RpgCommonMap.getTileIndex RpgCommonMap.getTileOriginPosition
  simp only [sub_zero]
  rw [floor_snap_div hth, floor_snap_div htw]

/-- A small concrete map used by witnesses: a 10×10 grid of 32×32 tiles. -/
def demoGrid : RpgCommonMap :=
  { width := 10, height := 10, tileWidth := 32, tileHeight := 32 }

/-- Witness for C4 at a concrete in-range position. -/
theorem getTileIndex_origin_roundtrip_witness :
    (0 < demoGrid.tileWidth ∧ 0 < demoGrid.tileHeight ∧
      (0 : ℚ) ≤ 35 ∧ (35 : ℚ) < demoGrid.widthPx ∧
      (0 : ℚ) ≤ 12 ∧ (12 : ℚ) < demoGrid.heightPx) ∧
    demoGrid.getTileIndex (demoGrid.getTileOriginPosition 35 12).1
        (demoGrid.getTileOriginPosition 35 12).2 0
      = demoGrid.getTileIndex 35 12 0 := by
  have h1 : 0 < demoGrid.tileWidth := by norm_num [demoGrid]
  have h2 : 0 < demoGrid.tileHeight := by norm_num [demoGrid]
  have h3 : (0 : ℚ) ≤ 35 := by norm_num
  have h4 : (35 : ℚ) < demoGrid.widthPx := by
    norm_num [demoGrid, RpgCommonMap.widthPx]
  have h5 : (0 : ℚ) ≤ 12 := by norm_num
  have h6 : (12 : ℚ) < demoGrid.heightPx := by
    norm_num [demoGrid, RpgCommonMap.heightPx]
  exact ⟨⟨h1, h2, h3, h4, h5, h6⟩,
    getTileIndex_origin_roundtrip demoGrid 35 12 h1 h2 h3 h4 h5 h6⟩

/-! ## Tile lookup (`getTileByIndex`) -/

/-- Modelled from the spec: the `intersection` helper (file `Utils.ts`,
not in src/) tests whether two intervals, each given as a
`[start, end]` pair and read as half-open, overlap:
it holds exactly when `max start1 start2 < min end1 end2`. -/
def intersection (a b : Num × Num) : Bool :=
  decide (max a.1 b.1 < min a.2 b.2)

/-- Array indexing `layer.tiles[tileIndex]`: `undefined` when the index
is negative or out of bounds. -/
def Layer.tileAt (l : Layer) (i : ℤ) : Option Cell :=
  if i < 0 then none else l.tiles.getD i.toNat none

/-- The z-depth computation of `getTileByIndex`: when the layer declares
`z`, the depth is `zLayer + (zTile !== undefined ? zTile : 0)`; else when
the tile declares `z`, the depth is `zTile`; else it is `undefined`. -/
def tileDepth (layer : Layer) (cell : Cell) : Option Num :=
  match layer.properties.z, cell.properties.z with
  | some zL, some zT => some (zL + zT)
  | some zL, none => some zL
  | none, some zT => some zT
  | none, none => none

/-- The accumulation loop of `getTileByIndex`: walk the layer list in
order, skip non-tile layers and missing cells, and keep a cell when its
depth is undefined or its z-pixel interval intersects `zPlayer`. -/
def collectTiles (m : RpgCommonMap) (tileIndex : ℤ) (zPlayer : Num × Num) :
    List Layer → List Cell
  | [] => []
  | layer :: rest =>
    let tailTiles := collectTiles m tileIndex zPlayer rest
    if layer.type ≠ "tile" then tailTiles
    else
      match layer.tileAt tileIndex with
      | none => tailTiles
      | some c =>
        match tileDepth layer c with
        | none => c :: tailTiles
        | some z =>
          let realZ := z * m.tileHeight
          if intersection zPlayer (realZ, realZ + m.tileHeight) then c :: tailTiles
          else tailTiles

/-- The result of a tile query (`TileInfo`).  Fields that can be
`undefined` in the source are `Option`-valued: `none` models a JS
`undefined` (a missing `isClimbable` field included). -/
structure TileInfo where
  tiles : List Cell
  hasCollision : Option Bool
  isOverlay : Option Bool
  isClimbable : Option Bool
  objectGroups : List Nat
deriving Repr, DecidableEq

/-- The tail of `getTileByIndex`: look at the last collected cell; when
there is none report solid void, otherwise attribute the last cell's
collision / overlay / climb / object groups. -/
def buildTileInfo (tiles : List Cell) : TileInfo :=
  match tiles.getLast? with
  | none =>
    { tiles := tiles, hasCollision := some true, isOverlay := some false,
      isClimbable := none, objectGroups := [] }
  | some lastTile =>
    { tiles := tiles, hasCollision := lastTile.properties.collision,
      isOverlay := lastTile.properties.overlay,
      isClimbable := lastTile.properties.climb,
      objectGroups := lastTile.objectGroups }

/-- `getTileByIndex(tileIndex, zPlayer = [0, 0])`: collect the included
cells of all tile layers, then build the query result from the last
collected cell. -/
def RpgCommonMap.getTileByIndex (m : RpgCommonMap) (tileIndex : ℤ)
    (zPlayer : Num × Num := (0, 0)) : TileInfo :=
  buildTileInfo (collectTiles m tileIndex zPlayer m.layers)

/-- The `tiles` field of the built result is the collected list itself. -/
lemma buildTileInfo_tiles (tiles : List Cell) :
    (buildTileInfo tiles).tiles = tiles := by
  unfold buildTileInfo
  cases tiles.getLast? <;> rfl

/-- Building from a list with last element `c` attributes `c`'s
properties. -/
lemma buildTileInfo_last (tiles : List Cell) (c : Cell)
    (h : tiles.getLast? = some c) :
    buildTileInfo tiles =
      { tiles := tiles, hasCollision := c.properties.collision,
        isOverlay := c.properties.overlay,
        isClimbable := c.properties.climb,
        objectGroups := c.objectGroups } := by
  unfold buildTileInfo
  rw [h]

/-- The `tiles` field of a query result is the collected cell list. -/
lemma getTileByIndex_tiles (m : RpgCommonMap) (tileIndex : ℤ)
    (zRange : Num × Num) :
    (m.getTileByIndex tileIndex zRange).tiles =
      collectTiles m tileIndex zRange m.layers :=
  buildTileInfo_tiles _

/-! ## Spec-side formulation of the z-filtering -/

/-- The spec's notion of interval overlap: the two intervals, read as
half-open `[lo, hi)`, share a point. -/
def overlapIco (a b : Num × Num) : Prop :=
  (Set.Ico a.1 a.2 ∩ Set.Ico b.1 b.2).Nonempty

/-- Half-open intervals overlap exactly when the larger lower bound lies
below the smaller upper bound. -/
lemma overlapIco_iff (a b : Num × Num) :
    overlapIco a b ↔ max a.1 b.1 < min a.2 b.2 := by
  unfold overlapIco
  rw [Set.Ico_inter_Ico, Set.nonempty_Ico]

instance (a b : Num × Num) : Decidable (overlapIco a b) :=
  decidable_of_iff _ (overlapIco_iff a b).symm

/-- The interval-pair overlap test agrees with the half-open-interval
reading. -/
lemma intersection_iff_overlapIco (a b : Num × Num) :
    intersection a b = true ↔ overlapIco a b := by
  simp [intersection, overlapIco_iff]

/-- The spec's effective z-depth of a cell: `layerZ + (tileZ if present
else 0)` when the layer declares `z`, else the tile's own `z` when
present, else undefined. -/
def specDepth (layer : Layer) (cell : Cell) : Option Num :=
  match layer.properties.z with
  | some zL => some (zL + (cell.properties.z).getD 0)
  | none => cell.properties.z

/-- The source's depth computation agrees with the spec's formula. -/
lemma tileDepth_eq_specDepth (layer : Layer) (cell : Cell) :
    tileDepth layer cell = specDepth layer cell := by
  unfold tileDepth specDepth
  cases layer.properties.z <;> cases cell.properties.z <;> simp

/-- The spec's per-cell inclusion condition: a cell with undefined depth
is always included; a cell at depth `d` is included iff the pixel
interval starting at `d * tileHeight` of length `tileHeight` overlaps
the query's `zRange`. -/
def specIncluded (m : RpgCommonMap) (zRange : Num × Num) (layer : Layer)
    (cell : Cell) : Prop :=
  match specDepth layer cell with
  | none => True
  | some d =>
      overlapIco zRange (d * m.tileHeight, d * m.tileHeight + m.tileHeight)

instance (m : RpgCommonMap) (zRange : Num × Num) (layer : Layer) (cell : Cell) :
    Decidable (specIncluded m zRange layer cell) := by
  unfold specIncluded
  cases specDepth layer cell
  · exact .isTrue trivial
  · exact inferInstance

/-- The spec's included-cell list: for every tile-type layer in list
order, its cell at the queried index, kept exactly when included. -/
def specTiles (m : RpgCommonMap) (tileIndex : ℤ) (zRange : Num × Num) : List Cell :=
  m.layers.filterMap (fun layer =>
    if layer.type = "tile" then
      match layer.tileAt tileIndex with
      | none => none
      | some c => if specIncluded m zRange layer c then some c else none
    else none)

/-- The accumulation loop computes exactly the spec's included-cell
list. -/
lemma collectTiles_eq_specTiles (m : RpgCommonMap) (tileIndex : ℤ)
    (zRange : Num × Num) (ls : List Layer) :
    collectTiles m tileIndex zRange ls = ls.filterMap (fun layer =>
      if layer.type = "tile" then
        match layer.tileAt tileIndex with
        | none => none
        | some c => if specIncluded m zRange layer c then some c else none
      else none) := by
  induction ls with
  | nil => rfl
  | cons layer rest ih =>
    rw [List.filterMap_cons]
    by_cases hty : layer.type = "tile"
    · simp only [collectTiles, hty, ite_true, if_neg (by simp [hty] : ¬layer.type ≠ "tile")]
      cases hc : layer.tileAt tileIndex with
      | none => simpa using ih
      | some c =>
        simp only []
        rw [tileDepth_eq_specDepth]
        cases hd : specDepth layer c with
        | none =>
          have hinc : specIncluded m zRange layer c := by
            unfold specIncluded; rw [hd]; trivial
          simp [hinc, ih]
        | some d =>
          by_cases hov : overlapIco zRange
              (d * m.tileHeight, d * m.tileHeight + m.tileHeight)
          · have hinc : specIncluded m zRange layer c := by
              unfold specIncluded; rw [hd]; exact hov
            have hb : intersection zRange
                (d * m.tileHeight, d * m.tileHeight + m.tileHeight) = true :=
              (intersection_iff_overlapIco _ _).mpr hov
            simp [hb, hinc, ih]
          · have hinc : ¬ specIncluded m zRange layer c := by
              unfold specIncluded; rw [hd]; exact hov
            have hb : ¬ intersection zRange
                (d * m.tileHeight, d * m.tileHeight + m.tileHeight) = true := by
              rw [intersection_iff_overlapIco]; exact hov
            simp [hb, hinc, ih]
    · simp only [collectTiles, if_pos (by simp [hty] : layer.type ≠ "tile"), hty,
        ite_false, ih]

/-- C2: for every tile-layer cell at the queried index, the source's
effective z-depth equals the spec's formula (`layerZ + (tileZ ?? 0)` when
the layer declares `z`, else `tileZ` when present, else undefined), and
the returned tiles are exactly the cells that are included by the spec's
rule: undefined depth is always included, and depth `d` is included iff
the interval from `d * tileHeight` of length `tileHeight` overlaps the
query's `zRange`. -/
theorem getTileByIndex_z_filtering (m : RpgCommonMap) (tileIndex : ℤ)
    (zRange : Num × Num) :
    (∀ layer cell, tileDepth layer cell = specDepth layer cell) ∧
    (m.getTileByIndex tileIndex zRange).tiles = specTiles m tileIndex zRange := by
  refine ⟨tileDepth_eq_specDepth, ?_⟩
  rw [getTileByIndex_tiles, collectTiles_eq_specTiles]
  rfl

/-- C1: the last included cell wins the collision / overlay / climb /
object-group attribution, and an empty inclusion list yields the solid
void default. -/
theorem getTileByIndex_last_included_wins (m : RpgCommonMap) (tileIndex : ℤ)
    (zRange : Num × Num) :
    ((m.getTileByIndex tileIndex zRange).tiles = [] →
      m.getTileByIndex tileIndex zRange =
        { tiles := [], hasCollision := some true, isOverlay := some false,
          isClimbable := none, objectGroups := [] }) ∧
    (∀ c, (m.getTileByIndex tileIndex zRange).tiles.getLast? = some c →
      (m.getTileByIndex tileIndex zRange).hasCollision = c.properties.collision ∧
      (m.getTileByIndex tileIndex zRange).isOverlay = c.properties.overlay ∧
      (m.getTileByIndex tileIndex zRange).isClimbable = c.properties.climb ∧
      (m.getTileByIndex tileIndex zRange).objectGroups = c.objectGroups) := by
  have ht : m.getTileByIndex tileIndex zRange =
      buildTileInfo (collectTiles m tileIndex zRange m.layers) := rfl
  constructor
  · intro h0
    rw [ht, buildTileInfo_tiles] at h0
    rw [ht, h0]
    rfl
  · intro c hc
    rw [ht, buildTileInfo_tiles] at hc
    rw [ht, buildTileInfo_last _ c hc]
    exact ⟨rfl, rfl, rfl, rfl⟩

/-- A concrete cell used by witnesses. -/
def demoCell : Cell where
  properties :=
    { collision := some true, overlay := some false, climb := some true, z := none }
  objectGroups := [7]

/-- A one-layer concrete map used by witnesses: a single tile layer whose
only cell is `demoCell`. -/
def demoTileMap : RpgCommonMap :=
  { width := 1, height := 1, tileWidth := 32, tileHeight := 32,
    layers := [{ type := "tile", tiles := [some demoCell] }] }

/-- Witness for C1: the empty map reports the solid void default, and on
a one-layer map the single included cell's attributes are returned. -/
theorem getTileByIndex_last_included_wins_witness :
    (demoGrid.getTileByIndex 0 (0, 0) =
      { tiles := [], hasCollision := some true, isOverlay := some false,
        isClimbable := none, objectGroups := [] }) ∧
    ((demoTileMap.getTileByIndex 0 (0, 0)).hasCollision = demoCell.properties.collision ∧
      (demoTileMap.getTileByIndex 0 (0, 0)).isOverlay = demoCell.properties.overlay ∧
      (demoTileMap.getTileByIndex 0 (0, 0)).isClimbable = demoCell.properties.climb ∧
      (demoTileMap.getTileByIndex 0 (0, 0)).objectGroups = demoCell.objectGroups) := by
  constructor
  · exact (getTileByIndex_last_included_wins demoGrid 0 (0, 0)).1 (by decide)
  · exact (getTileByIndex_last_included_wins demoTileMap 0 (0, 0)).2 demoCell
      (by decide)

/-- The stacked-layer scenario of C3: two tile layers covering index 0,
the first at layer depth 0, the second at layer depth 1, on a map whose
tiles are `th` pixels high. -/
def twoLayerMap (th : Num) (c1 c2 : Cell) : RpgCommonMap where
  width := 1
  height := 1
  tileWidth := th
  tileHeight := th
  layers := [
    { type := "tile", properties := { z := some 0 }, tiles := [some c1] },
    { type := "tile", properties := { z := some 1 }, tiles := [some c2] }]

/-- C3: with two layers at depths 0 and 1 over the same index, the query
`zRange = [0, tileHeight)` surfaces only the first layer's cell and its
attributes, and `zRange = [tileHeight, 2*tileHeight)` only the second's. -/
theorem getTileByIndex_zrange_selects (th : Num) (c1 c2 : Cell)
    (hth : 0 < th) (h1 : c1.properties.z = none) (h2 : c2.properties.z = none) :
    (twoLayerMap th c1 c2).getTileByIndex 0 (0, th) =
      { tiles := [c1], hasCollision := c1.properties.collision,
        isOverlay := c1.properties.overlay, isClimbable := c1.properties.climb,
        objectGroups := c1.objectGroups } ∧
    (twoLayerMap th c1 c2).getTileByIndex 0 (th, 2 * th) =
      { tiles := [c2], hasCollision := c2.properties.collision,
        isOverlay := c2.properties.overlay, isClimbable := c2.properties.climb,
        objectGroups := c2.objectGroups } := by
  have i1 : intersection (0, th) (0, th) = true := by
    simp only [intersection, decide_eq_true_eq]
    simpa using hth
  have i2 : intersection (0, th) (th, th + th) = false := by
    simp only [intersection, decide_eq_false_iff_not]
    rw [max_eq_right hth.le, min_eq_left (by linarith)]
    exact lt_irrefl th
  have i3 : intersection (th, 2 * th) (0, th) = false := by
    simp only [intersection, decide_eq_false_iff_not]
    rw [max_eq_left hth.le, min_eq_right (by linarith)]
    exact lt_irrefl th
  have i4 : intersection (th, 2 * th) (th, th + th) = true := by
    simp only [intersection, decide_eq_true_eq]
    rw [max_self, min_eq_right (by linarith)]
    linarith
  have e1 : collectTiles (twoLayerMap th c1 c2) 0 (0, th)
      (twoLayerMap th c1 c2).layers = [c1] := by
    simp [collectTiles, twoLayerMap, Layer.tileAt, tileDepth, h1, h2, i1, i2]
  have e2 : collectTiles (twoLayerMap th c1 c2) 0 (th, 2 * th)
      (twoLayerMap th c1 c2).layers = [c2] := by
    simp [collectTiles, twoLayerMap, Layer.tileAt, tileDepth, h1, h2, i3, i4]
  constructor
  · show buildTileInfo _ = _
    rw [e1, buildTileInfo_last [c1] c1 rfl]
  · show buildTileInfo _ = _
    rw [e2, buildTileInfo_last [c2] c2 rfl]

/-- A second concrete cell, with attributes differing from `demoCell`. -/
def demoCell2 : Cell where
  properties :=
    { collision := some false, overlay := some true, climb := none, z := none }
  objectGroups := [9]

/-- Witness for C3 at `tileHeight = 32` with two concrete cells. -/
theorem getTileByIndex_zrange_selects_witness :
    ((0 : Num) < 32 ∧ demoCell.properties.z = none ∧ demoCell2.properties.z = none) ∧
    ((twoLayerMap 32 demoCell demoCell2).getTileByIndex 0 (0, 32) =
      { tiles := [demoCell], hasCollision := demoCell.properties.collision,
        isOverlay := demoCell.properties.overlay,
        isClimbable := demoCell.properties.climb,
        objectGroups := demoCell.objectGroups } ∧
    (twoLayerMap 32 demoCell demoCell2).getTileByIndex 0 (32, 2 * 32) =
      { tiles := [demoCell2], hasCollision := demoCell2.properties.collision,
        isOverlay := demoCell2.properties.overlay,
        isClimbable := demoCell2.properties.climb,
        objectGroups := demoCell2.objectGroups }) :=
  ⟨⟨by norm_num, rfl, rfl⟩,
    getTileByIndex_zrange_selects 32 demoCell demoCell2 (by norm_num) rfl rfl⟩

/-! ## Shape registry -/

/-- Modelled from the spec: `generateUID` (file `Utils.ts`, not in src/)
returns a freshly generated unique identifier; modelled as an injective
function of the per-map generation counter. -/
def generateUID (seed : Nat) : String :=
  "object_" ++ String.mk (List.replicate seed 'x')

/-- Distinct seeds generate distinct identifiers. -/
lemma generateUID_injective : Function.Injective generateUID := by
  intro a b h
  have hlen := congrArg String.length h
  simpa [generateUID, String.length_append] using hlen

/-- The shape built from a raw object under a resolved name: the hitbox
rectangle comes from `x, y, width, height`, the properties default to
the empty mapping. -/
def mkShapeNamed (nm : String) (obj : HitObject) : RpgShape :=
  { name := nm, hitbox := ⟨obj.x, obj.y, obj.width, obj.height⟩,
    properties := obj.properties.getD {} }

/-- `createShape(obj)`: fill a missing `name` (freshly generated) and a
missing `properties` mapping into the caller's object, wrap it as an
`RpgShape`, push it onto the registry and return the just-stored last
entry.  The result carries the new map state, the updated object
(modelling the in-place mutation of the argument) and the returned
shape. -/
def RpgCommonMap.createShape (m : RpgCommonMap) (obj : HitObject) :
    RpgCommonMap × HitObject × RpgShape :=
  let nm := obj.name.getD (generateUID m.uidSeed)
  let obj' : HitObject :=
    { obj with name := some nm, properties := some (obj.properties.getD {}) }
  let shape := mkShapeNamed nm obj
  ({ m with
      shapes := m.shapes ++ [shape],
      uidSeed := if obj.name = none then m.uidSeed + 1 else m.uidSeed },
    obj', shape)

/-- `removeShape(name)`: drop every registered shape bearing the name;
silently does nothing when none matches. -/
def RpgCommonMap.removeShape (m : RpgCommonMap) (nm : String) : RpgCommonMap :=
  { m with shapes := m.shapes.filter (fun shape => shape.name != nm) }

/-- `getShapes()`: the current registry contents. -/
def RpgCommonMap.getShapes (m : RpgCommonMap) : List RpgShape :=
  m.shapes

/-- `getShape(name)`: the first registered shape with the name, or
`undefined`. -/
def RpgCommonMap.getShape (m : RpgCommonMap) (nm : String) : Option RpgShape :=
  m.shapes.find? (fun shape => shape.name == nm)

/-- JS `v || 0` on an optional number: `undefined` (and a `NaN` arising
from arithmetic on `undefined`) falls back to `0`. -/
def jsOrZero (v : Option Num) : Num :=
  match v with
  | none => 0
  | some x => x

/-- `getPositionByShape(filter)`: filter the registry, pick the entry at
the drawn index and return its hitbox position together with
`properties.z * zTileHeight || 0`; `null` when nothing matches.
`rand` is the oracle standing for `random(min, max)` of `Utils.ts` (not
in src/), modelled from the spec as a uniformly drawn integer between
its bounds inclusive. -/
def RpgCommonMap.getPositionByShape (m : RpgCommonMap)
    (filt : RpgShape → Bool) (rand : Nat → Nat → Nat) :
    Option (Num × Num × Num) :=
  let startsFind := m.getShapes.filter filt
  match startsFind with
  | [] => none
  | s0 :: rest =>
    let chosen := (s0 :: rest).getD (rand 0 ((s0 :: rest).length - 1)) s0
    some (chosen.hitbox.x, chosen.hitbox.y,
      jsOrZero ((chosen.properties.z).map (fun zv => zv * m.zTileHeight)))

/-- A `find?` over an appended list skips a prefix that never matches. -/
lemma find?_append_of_prefix_none {α : Type} {p : α → Bool} {l1 l2 : List α}
    (h : ∀ a ∈ l1, p a = false) :
    (l1 ++ l2).find? p = l2.find? p := by
  induction l1 with
  | nil => rfl
  | cons a l ih =>
    rw [List.cons_append, List.find?_cons_of_neg, ih]
    · intro x hx
      exact h x (List.mem_cons_of_mem a hx)
    · simp [h a (List.mem_cons_self a l)]

/-- After removal, a lookup by the removed name finds nothing. -/
lemma getShape_after_remove (m : RpgCommonMap) (nm : String) :
    (m.removeShape nm).getShape nm = none := by
  unfold RpgCommonMap.removeShape RpgCommonMap.getShape
  rw [List.find?_eq_none]
  intro s hs
  have := (List.mem_filter.mp hs).2
  simpa using this

/-- Removal by a name that matches nothing leaves the map unchanged. -/
lemma removeShape_noop (m : RpgCommonMap) (nm : String)
    (h : ∀ s ∈ m.shapes, s.name ≠ nm) :
    m.removeShape nm = m := by
  unfold RpgCommonMap.removeShape
  have : m.shapes.filter (fun shape => shape.name != nm) = m.shapes := by
    rw [List.filter_eq_self]
    intro s hs
    simpa using h s hs
  rw [this]

/-- C5: creating a rectangle shape registers it under the assigned name
with that rectangle as hitbox and the lookup finds it (provided the
assigned fresh name is not already taken); removing it makes the lookup
return `undefined`; removing an unknown name is a silent no-op. -/
theorem shape_lifecycle (m : RpgCommonMap) (x y w h : Num)
    (hfresh : ∀ s ∈ m.shapes, s.name ≠ generateUID m.uidSeed) :
    ((m.createShape { x := x, y := y, width := w, height := h }).1.getShape
        (m.createShape { x := x, y := y, width := w, height := h }).2.2.name =
      some (m.createShape { x := x, y := y, width := w, height := h }).2.2 ∧
      (m.createShape { x := x, y := y, width := w, height := h }).2.2.hitbox =
        ⟨x, y, w, h⟩) ∧
    (∀ (m' : RpgCommonMap) (nm : String), (m'.removeShape nm).getShape nm = none) ∧
    (∀ nm, (∀ s ∈ m.shapes, s.name ≠ nm) → m.removeShape nm = m) := by
  refine ⟨⟨?_, rfl⟩, fun m' nm => getShape_after_remove m' nm,
    fun nm hn => removeShape_noop m nm hn⟩
  show ({ m with
      shapes := m.shapes ++ [_],
      uidSeed := _ } : RpgCommonMap).getShape _ = _
  unfold RpgCommonMap.getShape
  simp only []
  rw [find?_append_of_prefix_none]
  · simp [mkShapeNamed, RpgCommonMap.createShape]
  · intro s hs
    simp only [mkShapeNamed, Option.getD_none, beq_eq_false_iff_ne, ne_eq]
    exact hfresh s hs

/-- Witness for C5 on an empty registry. -/
theorem shape_lifecycle_witness :
    (∀ s ∈ demoGrid.shapes, s.name ≠ generateUID demoGrid.uidSeed) ∧
    (((demoGrid.createShape { x := 10, y := 10, width := 5, height := 5 }).1.getShape
        (demoGrid.createShape { x := 10, y := 10, width := 5, height := 5 }).2.2.name =
      some (demoGrid.createShape { x := 10, y := 10, width := 5, height := 5 }).2.2 ∧
      (demoGrid.createShape { x := 10, y := 10, width := 5, height := 5 }).2.2.hitbox =
        ⟨10, 10, 5, 5⟩) ∧
    (∀ (m' : RpgCommonMap) (nm : String), (m'.removeShape nm).getShape nm = none) ∧
    (∀ nm, (∀ s ∈ demoGrid.shapes, s.name ≠ nm) → demoGrid.removeShape nm = demoGrid)) := by
  have hfresh : ∀ s ∈ demoGrid.shapes, s.name ≠ generateUID demoGrid.uidSeed := by
    intro s hs
    simp [demoGrid] at hs
  exact ⟨hfresh, shape_lifecycle demoGrid 10 10 5 5 hfresh⟩

/-- The position the spec attributes to a selected shape: its hitbox
position and `z = properties.z * zTileHeight`, defaulting to `0` when
`properties.z` is unset. -/
def specShapePosition (m : RpgCommonMap) (s : RpgShape) : Num × Num × Num :=
  (s.hitbox.x, s.hitbox.y, (s.properties.z).elim 0 (fun zv => zv * m.zTileHeight))

/-- The source's `z` expression agrees with the spec's default rule. -/
lemma jsOrZero_z (m : RpgCommonMap) (s : RpgShape) :
    jsOrZero ((s.properties.z).map (fun zv => zv * m.zTileHeight)) =
      (s.properties.z).elim 0 (fun zv => zv * m.zTileHeight) := by
  cases s.properties.z <;> rfl

/-- The picked entry of `getPositionByShape`, for a known match list
and an in-range draw. -/
lemma getPositionByShape_pick (m : RpgCommonMap) (filt : RpgShape → Bool)
    (rand : Nat → Nat → Nat) (l : List RpgShape)
    (hm : m.getShapes.filter filt = l) (k : Nat) (hk : k < l.length)
    (hrand : rand 0 (l.length - 1) = k) :
    m.getPositionByShape filt rand = some (specShapePosition m (l.get ⟨k, hk⟩)) := by
  cases l with
  | nil => simp at hk
  | cons s0 rest =>
    unfold RpgCommonMap.getPositionByShape
    simp only [hm, hrand]
    have hget : (s0 :: rest).getD k s0 = (s0 :: rest).get ⟨k, hk⟩ := by
      rw [List.getD_eq_getElem?_getD, List.getElem?_eq_getElem hk]
      simp
    rw [hget, jsOrZero_z]
    rfl

/-- C6: with no matching shape the query returns `null`; otherwise, for
every admissible random draw `k`, the returned position is the `k`-th
matching shape's hitbox position with `z = properties.z * zTileHeight`
(`0` when unset) — so every matching shape can be the selected one. -/
theorem getPositionByShape_spec (m : RpgCommonMap) (filt : RpgShape → Bool) :
    ((m.getShapes.filter filt = []) →
      ∀ rand, m.getPositionByShape filt rand = none) ∧
    (∀ k (hk : k < (m.getShapes.filter filt).length)
        (rand : Nat → Nat → Nat),
      rand 0 ((m.getShapes.filter filt).length - 1) = k →
      ∃ s, (m.getShapes.filter filt).get ⟨k, hk⟩ = s ∧ filt s = true ∧
        s ∈ m.getShapes ∧
        m.getPositionByShape filt rand = some (specShapePosition m s)) := by
  constructor
  · intro h0 rand
    unfold RpgCommonMap.getPositionByShape
    rw [h0]
  · intro k hk rand hrand
    have hmem : (m.getShapes.filter filt).get ⟨k, hk⟩ ∈ m.getShapes.filter filt :=
      List.get_mem _ _ _
    exact ⟨(m.getShapes.filter filt).get ⟨k, hk⟩, rfl,
      (List.mem_filter.mp hmem).2, (List.mem_filter.mp hmem).1,
      getPositionByShape_pick m filt rand _ rfl k hk hrand⟩

/-- Three marker shapes, only the second of which is named `"goal"` and
sits at depth `z = 2`. -/
def demoShapeMap : RpgCommonMap :=
  { width := 10, height := 10, tileWidth := 32, tileHeight := 32,
    shapes := [
      { name := "a", hitbox := ⟨0, 0, 1, 1⟩, properties := {} },
      { name := "goal", hitbox := ⟨5, 6, 1, 1⟩, properties := { z := some 2 } },
      { name := "b", hitbox := ⟨9, 9, 1, 1⟩, properties := {} }] }

/-- Witness for C6: the predicate matching only `"goal"` (at `z = 2`,
`tileHeight = 32`) yields `z = 64`. -/
theorem getPositionByShape_spec_witness :
    ((0 : Nat) <
      (demoShapeMap.getShapes.filter (fun s => s.name == "goal")).length) ∧
    (∃ s, (demoShapeMap.getShapes.filter
        (fun s => s.name == "goal")).get ⟨0, by decide⟩ = s ∧
      (fun s : RpgShape => s.name == "goal") s = true ∧
      s ∈ demoShapeMap.getShapes ∧
      demoShapeMap.getPositionByShape (fun s => s.name == "goal")
          (fun _ _ => 0) = some (specShapePosition demoShapeMap s)) ∧
    demoShapeMap.getPositionByShape (fun s => s.name == "goal")
        (fun _ _ => 0) = some (5, 6, 64) := by
  have hk : (0 : Nat) <
      (demoShapeMap.getShapes.filter (fun s => s.name == "goal")).length := by
    decide
  refine ⟨hk,
    (getPositionByShape_spec demoShapeMap (fun s => s.name == "goal")).2
      0 hk (fun _ _ => 0) rfl, ?_⟩
  simp [RpgCommonMap.getPositionByShape, RpgCommonMap.getShapes, demoShapeMap,
    jsOrZero, RpgCommonMap.zTileHeight]
  norm_num

/-! ## Loading and shape extraction -/

/-- The inner loop of `_extractShapes`: create a shape from each object
of an object layer, in order. -/
def extractObjects (m : RpgCommonMap) : List HitObject → RpgCommonMap
  | [] => m
  | obj :: rest => extractObjects (m.createShape obj).1 rest

/-- `_extractShapes()`: walk the layers in order and register every
object of every `"object"`-type layer, skipping other layers. -/
def extractShapesFrom (m : RpgCommonMap) : List Layer → RpgCommonMap
  | [] => m
  | layer :: rest =>
    if layer.type ≠ "object" then extractShapesFrom m rest
    else extractShapesFrom (extractObjects m layer.objects) rest

/-- `_extractShapes()` over the map's own layer list. -/
def RpgCommonMap.extractShapes (m : RpgCommonMap) : RpgCommonMap :=
  extractShapesFrom m m.layers

/-- `load(data)`: store the document's geometry and layers, then
extract the object-layer shapes into the registry. -/
def RpgCommonMap.load (m : RpgCommonMap) (data : MapData) : RpgCommonMap :=
  RpgCommonMap.extractShapes
    { m with
        width := data.width, tileWidth := data.tileWidth,
        tileHeight := data.tileHeight, height := data.height,
        layers := data.layers }

/-- The registry entries the spec expects from a list of raw objects
processed in order starting at generation counter `seed`: each object
keeps its own name or receives the next generated one, and only
nameless objects advance the counter. -/
def assignShapes : Nat → List HitObject → List RpgShape
  | _, [] => []
  | seed, obj :: rest =>
    mkShapeNamed (obj.name.getD (generateUID seed)) obj ::
      assignShapes (if obj.name = none then seed + 1 else seed) rest

/-- The generation counter after processing a list of raw objects. -/
def seedAfter : Nat → List HitObject → Nat
  | seed, [] => seed
  | seed, obj :: rest => seedAfter (if obj.name = none then seed + 1 else seed) rest

/-- The names generated for the nameless objects, in order. -/
def genNames : Nat → List HitObject → List String
  | _, [] => []
  | seed, obj :: rest =>
    if obj.name = none then generateUID seed :: genNames (seed + 1) rest
    else genNames seed rest

/-- The raw objects of all `"object"`-type layers, in document order. -/
def objectLayerObjects (layers : List Layer) : List HitObject :=
  (layers.filter (fun layer => layer.type == "object")).flatMap
    (fun layer => layer.objects)

/-- Extracting a list of objects appends exactly the expected shape
entries and advances the counter accordingly, leaving the rest of the
map state untouched. -/
lemma extractObjects_spec (objs : List HitObject) :
    ∀ m : RpgCommonMap,
      (extractObjects m objs).shapes = m.shapes ++ assignShapes m.uidSeed objs ∧
      (extractObjects m objs).uidSeed = seedAfter m.uidSeed objs ∧
      (extractObjects m objs).layers = m.layers := by
  induction objs with
  | nil => intro m; exact ⟨by simp [extractObjects, assignShapes], rfl, rfl⟩
  | cons obj rest ih =>
    intro m
    have h := ih (m.createShape obj).1
    refine ⟨?_, ?_, ?_⟩
    · show (extractObjects (m.createShape obj).1 rest).shapes = _
      rw [h.1]
      show (m.shapes ++ [mkShapeNamed (obj.name.getD (generateUID m.uidSeed)) obj])
          ++ assignShapes (if obj.name = none then m.uidSeed + 1 else m.uidSeed) rest
        = _
      rw [List.append_assoc]
      rfl
    · show (extractObjects (m.createShape obj).1 rest).uidSeed = _
      rw [h.2.1]
      rfl
    · show (extractObjects (m.createShape obj).1 rest).layers = _
      rw [h.2.2]
      rfl

/-- Assignment distributes over appended object lists, threading the
counter. -/
lemma assignShapes_append (xs : List HitObject) :
    ∀ (ys : List HitObject) (seed : Nat),
      assignShapes seed (xs ++ ys) =
        assignShapes seed xs ++ assignShapes (seedAfter seed xs) ys := by
  induction xs with
  | nil => intro ys seed; rfl
  | cons obj rest ih =>
    intro ys seed
    show mkShapeNamed _ obj :: assignShapes _ (rest ++ ys) = _
    rw [ih]
    rfl

/-- The counter after an appended list is the counter threaded through
both parts. -/
lemma seedAfter_append (xs : List HitObject) :
    ∀ (ys : List HitObject) (seed : Nat),
      seedAfter seed (xs ++ ys) = seedAfter (seedAfter seed xs) ys := by
  induction xs with
  | nil => intro ys seed; rfl
  | cons obj rest ih =>
    intro ys seed
    show seedAfter _ (rest ++ ys) = _
    rw [ih]
    rfl

/-- Walking the layer list appends exactly the shapes of the
object-type layers' objects, in document order. -/
lemma extractShapesFrom_spec (ls : List Layer) :
    ∀ m : RpgCommonMap,
      (extractShapesFrom m ls).shapes =
        m.shapes ++ assignShapes m.uidSeed (objectLayerObjects ls) ∧
      (extractShapesFrom m ls).uidSeed =
        seedAfter m.uidSeed (objectLayerObjects ls) := by
  induction ls with
  | nil => intro m; exact ⟨by simp [extractShapesFrom, objectLayerObjects, assignShapes], rfl⟩
  | cons layer rest ih =>
    intro m
    by_cases hty : layer.type = "object"
    · have hobj : objectLayerObjects (layer :: rest) =
          layer.objects ++ objectLayerObjects rest := by
        simp [objectLayerObjects, hty]
      have hstep : extractShapesFrom m (layer :: rest) =
          extractShapesFrom (extractObjects m layer.objects) rest := by
        simp [extractShapesFrom, hty]
      have he := extractObjects_spec layer.objects m
      have hr := ih (extractObjects m layer.objects)
      constructor
      · rw [hstep, hr.1, he.1, he.2.1, hobj, assignShapes_append, List.append_assoc]
      · rw [hstep, hr.2, he.2.1, hobj, seedAfter_append]
    · have hobj : objectLayerObjects (layer :: rest) = objectLayerObjects rest := by
        simp [objectLayerObjects, hty]
      have hstep : extractShapesFrom m (layer :: rest) = extractShapesFrom m rest := by
        simp [extractShapesFrom, hty]
      rw [hstep, hobj]
      exact ih m

/-- Every generated name comes from a counter value at or above the
starting seed. -/
lemma mem_genNames (objs : List HitObject) :
    ∀ (seed : Nat) (nm : String), nm ∈ genNames seed objs →
      ∃ k, seed ≤ k ∧ nm = generateUID k := by
  induction objs with
  | nil => intro seed nm h; simp [genNames] at h
  | cons obj rest ih =>
    intro seed nm h
    by_cases hn : obj.name = none
    · rw [genNames, if_pos hn] at h
      rcases List.mem_cons.mp h with h1 | h2
      · exact ⟨seed, le_refl seed, h1⟩
      · obtain ⟨k, hk1, hk2⟩ := ih (seed + 1) nm h2
        exact ⟨k, by omega, hk2⟩
    · rw [genNames, if_neg hn] at h
      exact ih seed nm h

/-- Generated names are pairwise distinct. -/
lemma genNames_nodup (objs : List HitObject) :
    ∀ seed : Nat, (genNames seed objs).Nodup := by
  induction objs with
  | nil => intro seed; simp [genNames]
  | cons obj rest ih =>
    intro seed
    by_cases hn : obj.name = none
    · rw [genNames, if_pos hn]
      refine List.nodup_cons.mpr ⟨?_, ih (seed + 1)⟩
      intro hmem
      obtain ⟨k, hk1, hk2⟩ := mem_genNames rest (seed + 1) _ hmem
      have : seed = k := generateUID_injective hk2
      omega
    · rw [genNames, if_neg hn]
      exact ih seed

/-- The generated names are exactly the names assigned to the nameless
objects, in order. -/
lemma genNames_eq_assigned (objs : List HitObject) :
    ∀ seed : Nat,
      ((objs.zip (assignShapes seed objs)).filterMap
          (fun p => if p.1.name = none then some p.2.name else none))
        = genNames seed objs := by
  induction objs with
  | nil => intro seed; rfl
  | cons obj rest ih =>
    intro seed
    by_cases hn : obj.name = none
    · simp [assignShapes, genNames, hn, mkShapeNamed, ih]
    · simp [assignShapes, genNames, hn, mkShapeNamed, ih]

/-- C7: after `load(document)`, the registry has gained exactly one
shape per object of every `"object"`-type layer, in document order, each
keeping its own name or receiving a generated one; the generated names
are exactly those given to the nameless objects and are pairwise
distinct; non-object layers contribute nothing. -/
theorem load_extracts_object_layer_shapes (m0 : RpgCommonMap) (d : MapData) :
    (m0.load d).shapes =
      m0.shapes ++ assignShapes m0.uidSeed (objectLayerObjects d.layers) ∧
    ((objectLayerObjects d.layers).zip
        (assignShapes m0.uidSeed (objectLayerObjects d.layers))).filterMap
      (fun p => if p.1.name = none then some p.2.name else none)
      = genNames m0.uidSeed (objectLayerObjects d.layers) ∧
    (genNames m0.uidSeed (objectLayerObjects d.layers)).Nodup := by
  refine ⟨?_, genNames_eq_assigned _ _, genNames_nodup _ _⟩
  unfold RpgCommonMap.load RpgCommonMap.extractShapes
  exact (extractShapesFrom_spec d.layers _).1

/-! ## Frame effect of `createShape` -/

/-- C10: `createShape` writes a generated name into a nameless input
object and an empty mapping into a propertyless one, preserves every
other field of the input, stores the new shape at the end of the
registry and returns exactly the stored last entry. -/
theorem createShape_frame (m : RpgCommonMap) (obj : HitObject) :
    ((m.createShape obj).2.1.name =
      some (obj.name.getD (generateUID m.uidSeed))) ∧
    (obj.name ≠ none → (m.createShape obj).2.1.name = obj.name) ∧
    ((m.createShape obj).2.1.properties = some (obj.properties.getD {})) ∧
    (obj.properties ≠ none → (m.createShape obj).2.1.properties = obj.properties) ∧
    (m.createShape obj).2.1.x = obj.x ∧
    (m.createShape obj).2.1.y = obj.y ∧
    (m.createShape obj).2.1.width = obj.width ∧
    (m.createShape obj).2.1.height = obj.height ∧
    (m.createShape obj).1.shapes = m.shapes ++ [(m.createShape obj).2.2] ∧
    (m.createShape obj).1.shapes.getLast? = some (m.createShape obj).2.2 := by
  refine ⟨rfl, ?_, rfl, ?_, rfl, rfl, rfl, rfl, rfl, ?_⟩
  · intro hn
    cases h : obj.name with
    | none => exact absurd h hn
    | some nm => simp [RpgCommonMap.createShape, h]
  · intro hp
    cases h : obj.properties with
    | none => exact absurd h hp
    | some pr => simp [RpgCommonMap.createShape, h]
  · show (m.shapes ++ [(m.createShape obj).2.2]).getLast? = _
    exact List.getLast?_concat _

/-- A concrete raw object carrying its own name and properties. -/
def demoObj : HitObject :=
  { x := 1, y := 2, width := 3, height := 4, name := some "door",
    properties := some { z := some 1 } }

/-- Witness for C10 on a named, propertied concrete object. -/
theorem createShape_frame_witness :
    (demoObj.name ≠ none ∧ demoObj.properties ≠ none) ∧
    ((demoGrid.createShape demoObj).2.1.name = demoObj.name ∧
      (demoGrid.createShape demoObj).2.1.properties = demoObj.properties ∧
      (demoGrid.createShape demoObj).2.1.x = demoObj.x ∧
      (demoGrid.createShape demoObj).1.shapes.getLast? =
        some (demoGrid.createShape demoObj).2.2) := by
  have h := createShape_frame demoGrid demoObj
  obtain ⟨-, hname, -, hprops, hx, -, -, -, -, hlast⟩ := h
  have hn : demoObj.name ≠ none := by simp [demoObj]
  have hp : demoObj.properties ≠ none := by simp [demoObj]
  exact ⟨⟨hn, hp⟩, hname hn, hprops hp, hx, hlast⟩

/-! ## GUI session state machine

The `Gui` class is modelled as a state machine with an explicit event
trace.  A promise is identified by the number it gets on creation;
resolving is an event in the trace, and the JS platform's rule that a
promise resolver is a no-op after the first resolution is modelled in
`resolvePromise`.  The player's `canMove` flag is carried in the state. -/

/-- GUI payload values. -/
abbrev GuiData := String

/-- An observable event of a GUI session: an emitted notification or a
promise resolution. -/
inductive GuiEvent where
  | guiOpen (guiId : String) (data : Option GuiData)
  | guiExit (guiId : String)
  | resolve (promiseId : Nat) (data : Option GuiData)
deriving Repr, DecidableEq

/-- The state of one `Gui` instance together with its player's movement
flag and the observable trace. -/
structure GuiState where
  id : String
  pendingClose : Option Nat := none
  blockPlayerInput : Bool := false
  canMove : Nat := 1
  nextPromiseId : Nat := 0
  trace : List GuiEvent := []
deriving Repr, DecidableEq

/-- Whether an event is a resolution of promise `p`. -/
def GuiEvent.resolvesId : GuiEvent → Nat → Bool
  | .resolve q _, p => q == p
  | _, _ => false

/-- Whether promise `p` has been resolved in the trace. -/
def GuiState.isResolved (st : GuiState) (p : Nat) : Bool :=
  st.trace.any (fun e => e.resolvesId p)

/-- How many resolutions of promise `p` the trace records. -/
def resolveCount (st : GuiState) (p : Nat) : Nat :=
  (st.trace.filter (fun e => e.resolvesId p)).length

/-- Invoking the stored resolver of promise `p`: records a resolution
unless `p` is already resolved (the platform ignores later calls). -/
def resolvePromise (st : GuiState) (p : Nat) (d : Option GuiData) : GuiState :=
  if st.isResolved p then st
  else { st with trace := st.trace ++ [GuiEvent.resolve p d] }

/-- `gui.open(data, {waitingAction, blockPlayerInput})`: create a fresh
promise, emit `gui.open`, store the block flag, lock movement when
requested, then either resolve the promise at once (fire-and-forget) or
store its resolver as the pending close.  Returns the new state and the
promise's identifier. -/
def GuiState.openGui (st : GuiState) (data : Option GuiData)
    (waitingAction : Bool := false) (blockPlayerInput : Bool := false) :
    GuiState × Nat :=
  let p := st.nextPromiseId
  let st2 := { st with
    nextPromiseId := p + 1,
    trace := st.trace ++ [GuiEvent.guiOpen st.id data],
    blockPlayerInput := blockPlayerInput,
    canMove := if blockPlayerInput then 0 else st.canMove }
  if waitingAction then ({ st2 with pendingClose := some p }, p)
  else (resolvePromise st2 p none, p)

/-- `gui.close(data)`: emit `gui.exit`, restore movement when the last
open locked it, then invoke the stored resolver with `data` (the initial
resolver is a no-op). -/
def GuiState.closeGui (st : GuiState) (data : Option GuiData) : GuiState :=
  let st2 := { st with
    trace := st.trace ++ [GuiEvent.guiExit st.id],
    canMove := if st.blockPlayerInput then 1 else st.canMove }
  match st.pendingClose with
  | none => st2
  | some p => resolvePromise st2 p data

/-- Reachable-state invariant: every resolved promise and any pending
resolver's promise were created before the next fresh identifier. -/
def GuiState.Good (st : GuiState) : Prop :=
  (∀ p d, GuiEvent.resolve p d ∈ st.trace → p < st.nextPromiseId) ∧
  (∀ p, st.pendingClose = some p → p < st.nextPromiseId)

/-- A promise above every recorded resolution is unresolved. -/
lemma isResolved_false_of_lt (st : GuiState) (p : Nat)
    (h : ∀ q d, GuiEvent.resolve q d ∈ st.trace → q < p) :
    st.isResolved p = false := by
  unfold GuiState.isResolved
  rw [List.any_eq_false]
  intro e he
  cases e with
  | guiOpen _ _ => simp [GuiEvent.resolvesId]
  | guiExit _ => simp [GuiEvent.resolvesId]
  | resolve q d =>
    have := h q d he
    simp [GuiEvent.resolvesId]
    omega

/-- C8: opening with `waitingAction = true` leaves the returned promise
unresolved; the following close appends exactly `gui.exit` and one
resolution with the close data to the trace (so `gui.open` precedes any
resolution and `gui.exit` precedes the resolver call), resolves exactly
once, and restores movement when the open locked it. -/
theorem gui_open_close_spec (st : GuiState) (hg : st.Good)
    (data resultData : Option GuiData) (bpi : Bool) :
    ((st.openGui data true bpi).1.isResolved (st.openGui data true bpi).2 = false) ∧
    (((st.openGui data true bpi).1.closeGui resultData).trace =
      st.trace ++ [GuiEvent.guiOpen st.id data, GuiEvent.guiExit st.id,
        GuiEvent.resolve (st.openGui data true bpi).2 resultData]) ∧
    (resolveCount ((st.openGui data true bpi).1.closeGui resultData)
      (st.openGui data true bpi).2 = 1) ∧
    (bpi = true → ((st.openGui data true bpi).1.closeGui resultData).canMove = 1) := by
  set p := st.nextPromiseId with hp
  have hlt : ∀ q d, GuiEvent.resolve q d ∈ st.trace → q < p := fun q d hq => hg.1 q d hq
  have hopen1 : (st.openGui data true bpi).1 =
      { st with
        nextPromiseId := p + 1,
        trace := st.trace ++ [GuiEvent.guiOpen st.id data],
        blockPlayerInput := bpi,
        canMove := if bpi then 0 else st.canMove,
        pendingClose := some p } := by
    unfold GuiState.openGui
    cases bpi <;> rfl
  have hopen2 : (st.openGui data true bpi).2 = p := by
    unfold GuiState.openGui
    cases bpi <;> rfl
  have hnores1 : ∀ (l : List GuiEvent),
      (∀ q d, GuiEvent.resolve q d ∈ l → q < p) →
      (l ++ [GuiEvent.guiOpen st.id data]).any (fun e => e.resolvesId p) = false := by
    intro l hl
    rw [List.any_append]
    have h1 : l.any (fun e => e.resolvesId p) = false :=
      isResolved_false_of_lt { st with trace := l } p (fun q d hq => hl q d hq)
    rw [h1]
    simp [GuiEvent.resolvesId]
  have hunres : (st.openGui data true bpi).1.isResolved p = false := by
    rw [hopen1]
    exact hnores1 st.trace hlt
  have hclose : ((st.openGui data true bpi).1.closeGui resultData).trace =
      st.trace ++ [GuiEvent.guiOpen st.id data, GuiEvent.guiExit st.id,
        GuiEvent.resolve p resultData] ∧
      (bpi = true → ((st.openGui data true bpi).1.closeGui resultData).canMove = 1) := by
    rw [hopen1]
    unfold GuiState.closeGui
    have hunres2 :
        ({ st with
            nextPromiseId := p + 1,
            trace := (st.trace ++ [GuiEvent.guiOpen st.id data]) ++ [GuiEvent.guiExit st.id],
            blockPlayerInput := bpi,
            canMove := if bpi = true then 1 else (if bpi then 0 else st.canMove),
            pendingClose := some p } : GuiState).isResolved p = false := by
      unfold GuiState.isResolved
      rw [List.any_append]
      have h1 := hnores1 st.trace hlt
      rw [h1]
      simp [GuiEvent.resolvesId]
    cases bpi with
    | false =>
      simp only [ite_false, Bool.false_eq_true]
      unfold resolvePromise
      rw [show ({ st with
          nextPromiseId := p + 1,
          trace := (st.trace ++ [GuiEvent.guiOpen st.id data]) ++ [GuiEvent.guiExit st.id],
          blockPlayerInput := false,
          canMove := st.canMove,
          pendingClose := some p } : GuiState).isResolved p = false from by
        unfold GuiState.isResolved
        rw [List.any_append, hnores1 st.trace hlt]
        simp [GuiEvent.resolvesId]]
      constructor
      · simp
      · intro h
        exact absurd h (by simp)
    | true =>
      simp only [ite_true]
      unfold resolvePromise
      rw [show ({ st with
          nextPromiseId := p + 1,
          trace := (st.trace ++ [GuiEvent.guiOpen st.id data]) ++ [GuiEvent.guiExit st.id],
          blockPlayerInput := true,
          canMove := 1,
          pendingClose := some p } : GuiState).isResolved p = false from by
        unfold GuiState.isResolved
        rw [List.any_append, hnores1 st.trace hlt]
        simp [GuiEvent.resolvesId]]
      constructor
      · simp
      · intro _
        rfl
  refine ⟨by rw [hopen2]; exact hunres, by rw [hopen2]; exact hclose.1, ?_, hclose.2⟩
  rw [hopen2]
  unfold resolveCount
  rw [hclose.1]
  rw [List.filter_append]
  have h0 : st.trace.filter (fun e => e.resolvesId p) = [] := by
    rw [List.filter_eq_nil_iff]
    intro e he
    cases e with
    | guiOpen _ _ => simp [GuiEvent.resolvesId]
    | guiExit _ => simp [GuiEvent.resolvesId]
    | resolve q d =>
      have := hlt q d he
      simp [GuiEvent.resolvesId]
      omega
  rw [h0]
  simp [GuiEvent.resolvesId]

/-- A freshly constructed GUI session. -/
def demoGui : GuiState := { id := "shop" }

/-- Witness for C8 on a fresh session with movement locked. -/
theorem gui_open_close_spec_witness :
    demoGui.Good ∧
    (((demoGui.openGui (some "payload") true true).1.isResolved
        (demoGui.openGui (some "payload") true true).2 = false) ∧
      (((demoGui.openGui (some "payload") true true).1.closeGui (some "result")).trace =
        demoGui.trace ++ [GuiEvent.guiOpen demoGui.id (some "payload"),
          GuiEvent.guiExit demoGui.id,
          GuiEvent.resolve (demoGui.openGui (some "payload") true true).2 (some "result")]) ∧
      (resolveCount ((demoGui.openGui (some "payload") true true).1.closeGui (some "result"))
        (demoGui.openGui (some "payload") true true).2 = 1) ∧
      (true = true → ((demoGui.openGui (some "payload") true true).1.closeGui
          (some "result")).canMove = 1)) := by
  have hg : demoGui.Good := by
    constructor
    · intro p d h
      simp [demoGui] at h
    · intro p h
      simp [demoGui] at h
  exact ⟨hg, gui_open_close_spec demoGui hg (some "payload") (some "result") true⟩

/-! ### Arbitrary operation sequences -/

/-- A user-level operation on a GUI session. -/
inductive GuiOp where
  | opOpen (data : Option GuiData) (waitingAction blockPlayerInput : Bool)
  | opClose (data : Option GuiData)
deriving Repr, DecidableEq

/-- One operation step. -/
def GuiState.step (st : GuiState) : GuiOp → GuiState
  | .opOpen d wa bpi => (st.openGui d wa bpi).1
  | .opClose d => st.closeGui d

/-- Run a sequence of operations. -/
def GuiState.runOps (st : GuiState) : List GuiOp → GuiState
  | [] => st
  | op :: rest => (st.step op).runOps rest

/-- `resolvePromise` only ever touches the trace. -/
lemma resolvePromise_nextPromiseId (st : GuiState) (p : Nat) (d : Option GuiData) :
    (resolvePromise st p d).nextPromiseId = st.nextPromiseId := by
  unfold resolvePromise
  split <;> rfl

/-- `resolvePromise` leaves the pending resolver unchanged. -/
lemma resolvePromise_pendingClose (st : GuiState) (p : Nat) (d : Option GuiData) :
    (resolvePromise st p d).pendingClose = st.pendingClose := by
  unfold resolvePromise
  split <;> rfl

/-- `resolvePromise` appends at most a resolution of its own promise. -/
lemma resolvePromise_trace (st : GuiState) (p : Nat) (d : Option GuiData) :
    ∃ tail, (resolvePromise st p d).trace = st.trace ++ tail ∧
      ∀ q dd, GuiEvent.resolve q dd ∈ tail → q = p := by
  unfold resolvePromise
  split
  · exact ⟨[], by simp, by intro q dd h; simp at h⟩
  · refine ⟨[GuiEvent.resolve p d], rfl, ?_⟩
    intro q dd h
    simp at h
    exact h.1

/-- A waiting-action open, fully computed. -/
lemma openGui_true_eq (st : GuiState) (d : Option GuiData) (bpi : Bool) :
    st.openGui d true bpi =
      ({ st with
          nextPromiseId := st.nextPromiseId + 1,
          trace := st.trace ++ [GuiEvent.guiOpen st.id d],
          blockPlayerInput := bpi,
          canMove := if bpi then 0 else st.canMove,
          pendingClose := some st.nextPromiseId }, st.nextPromiseId) := by
  unfold GuiState.openGui
  cases bpi <;> rfl

/-- A fire-and-forget open, fully computed. -/
lemma openGui_false_eq (st : GuiState) (d : Option GuiData) (bpi : Bool) :
    st.openGui d false bpi =
      (resolvePromise
        { st with
            nextPromiseId := st.nextPromiseId + 1,
            trace := st.trace ++ [GuiEvent.guiOpen st.id d],
            blockPlayerInput := bpi,
            canMove := if bpi then 0 else st.canMove }
        st.nextPromiseId none, st.nextPromiseId) := by
  unfold GuiState.openGui
  cases bpi <;> rfl

/-- Field effects of any open. -/
lemma openGui_fields (st : GuiState) (d : Option GuiData) (wa bpi : Bool) :
    (st.openGui d wa bpi).1.nextPromiseId = st.nextPromiseId + 1 ∧
    (st.openGui d wa bpi).1.pendingClose =
      (if wa then some st.nextPromiseId else st.pendingClose) ∧
    ∃ tail, (st.openGui d wa bpi).1.trace = st.trace ++ tail ∧
      ∀ q dd, GuiEvent.resolve q dd ∈ tail → q = st.nextPromiseId := by
  cases wa with
  | true =>
    rw [openGui_true_eq]
    refine ⟨rfl, rfl, [GuiEvent.guiOpen st.id d], rfl, ?_⟩
    intro q dd h
    simp at h
  | false =>
    rw [openGui_false_eq]
    obtain ⟨tail, ht, hq⟩ := resolvePromise_trace
      { st with
          nextPromiseId := st.nextPromiseId + 1,
          trace := st.trace ++ [GuiEvent.guiOpen st.id d],
          blockPlayerInput := bpi,
          canMove := if bpi then 0 else st.canMove }
      st.nextPromiseId none
    refine ⟨by rw [resolvePromise_nextPromiseId],
      by rw [resolvePromise_pendingClose]; simp, ?_⟩
    refine ⟨GuiEvent.guiOpen st.id d :: tail, ?_, ?_⟩
    · rw [ht]
      simp
    · intro q dd h
      rcases List.mem_cons.mp h with h1 | h2
      · cases h1
      · exact hq q dd h2

/-- A close with no pending resolver, fully computed. -/
lemma closeGui_none (st : GuiState) (d : Option GuiData)
    (hp : st.pendingClose = none) :
    st.closeGui d =
      { st with
          trace := st.trace ++ [GuiEvent.guiExit st.id],
          canMove := if st.blockPlayerInput then 1 else st.canMove } := by
  unfold GuiState.closeGui
  rw [hp]

/-- A close with a pending resolver, fully computed. -/
lemma closeGui_some (st : GuiState) (d : Option GuiData) (p : Nat)
    (hp : st.pendingClose = some p) :
    st.closeGui d =
      resolvePromise
        { st with
            trace := st.trace ++ [GuiEvent.guiExit st.id],
            canMove := if st.blockPlayerInput then 1 else st.canMove } p d := by
  unfold GuiState.closeGui
  rw [hp]

/-- Field effects of a close. -/
lemma closeGui_fields (st : GuiState) (d : Option GuiData) :
    (st.closeGui d).nextPromiseId = st.nextPromiseId ∧
    (st.closeGui d).pendingClose = st.pendingClose ∧
    ∃ tail, (st.closeGui d).trace = st.trace ++ tail ∧
      ∀ q dd, GuiEvent.resolve q dd ∈ tail → st.pendingClose = some q := by
  cases hp : st.pendingClose with
  | none =>
    rw [closeGui_none st d hp]
    refine ⟨rfl, by rw [hp], [GuiEvent.guiExit st.id], rfl, ?_⟩
    intro q dd h
    simp at h
  | some p =>
    rw [closeGui_some st d p hp]
    obtain ⟨tail, ht, hq⟩ := resolvePromise_trace
      { st with
          trace := st.trace ++ [GuiEvent.guiExit st.id],
          canMove := if st.blockPlayerInput then 1 else st.canMove }
      p d
    refine ⟨by rw [resolvePromise_nextPromiseId], ?_, ?_⟩
    · rw [resolvePromise_pendingClose]
      exact hp
    · refine ⟨GuiEvent.guiExit st.id :: tail, ?_, ?_⟩
      · rw [ht]
        simp
      · intro q dd h
        rcases List.mem_cons.mp h with h1 | h2
        · cases h1
        · rw [hq q dd h2]

/-- A promise whose resolver has been replaced and that is still
unresolved: nothing can resolve it any more. -/
def Abandoned (st : GuiState) (p : Nat) : Prop :=
  p < st.nextPromiseId ∧ st.pendingClose ≠ some p ∧ st.isResolved p = false

/-- Resolvedness over an appended trace. -/
lemma isResolved_append (st : GuiState) (tail : List GuiEvent) (p : Nat) :
    ({ st with trace := st.trace ++ tail } : GuiState).isResolved p =
      (st.isResolved p || tail.any (fun e => e.resolvesId p)) := by
  unfold GuiState.isResolved
  exact List.any_append

/-- Any step preserves the reachable-state invariant. -/
lemma good_step (st : GuiState) (hg : st.Good) (op : GuiOp) : (st.step op).Good := by
  cases op with
  | opOpen d wa bpi =>
    show ((st.openGui d wa bpi).1).Good
    obtain ⟨hn, hpc, tail, ht, hq⟩ := openGui_fields st d wa bpi
    constructor
    · intro q dd hmem
      rw [ht] at hmem
      rcases List.mem_append.mp hmem with h1 | h2
      · have := hg.1 q dd h1
        omega
      · have := hq q dd h2
        omega
    · intro q hpc2
      rw [hpc] at hpc2
      by_cases hwa : wa = true
      · rw [if_pos hwa] at hpc2
        cases hpc2
        omega
      · rw [if_neg hwa] at hpc2
        have := hg.2 q hpc2
        omega
  | opClose d =>
    show (st.closeGui d).Good
    obtain ⟨hn, hpc, tail, ht, hq⟩ := closeGui_fields st d
    constructor
    · intro q dd hmem
      rw [ht] at hmem
      rcases List.mem_append.mp hmem with h1 | h2
      · rw [hn]
        exact hg.1 q dd h1
      · rw [hn]
        exact hg.2 q (hq q dd h2)
    · intro q hpc2
      rw [hpc] at hpc2
      rw [hn]
      exact hg.2 q hpc2

/-- A trace extended only by non-resolutions of `p` keeps `p`
unresolved. -/
lemma any_resolvesId_append_false (l tail : List GuiEvent) (p : Nat)
    (h1 : l.any (fun e => e.resolvesId p) = false)
    (h2 : ∀ q dd, GuiEvent.resolve q dd ∈ tail → q ≠ p) :
    (l ++ tail).any (fun e => e.resolvesId p) = false := by
  rw [List.any_append, h1, Bool.false_or, List.any_eq_false]
  intro e he
  cases e with
  | guiOpen _ _ => simp [GuiEvent.resolvesId]
  | guiExit _ => simp [GuiEvent.resolvesId]
  | resolve q dd =>
    have := h2 q dd he
    simp [GuiEvent.resolvesId]
    omega

/-- Any step preserves abandonment: the abandoned promise stays
unresolved and unreferenced. -/
lemma abandoned_step (st : GuiState) (p : Nat) (hg : st.Good)
    (ha : Abandoned st p) (op : GuiOp) : Abandoned (st.step op) p := by
  cases op with
  | opOpen d wa bpi =>
    obtain ⟨hn, hpc, tail, ht, hq⟩ := openGui_fields st d wa bpi
    refine ⟨?_, ?_, ?_⟩
    · show p < (st.openGui d wa bpi).1.nextPromiseId
      rw [hn]
      have := ha.1
      omega
    · show (st.openGui d wa bpi).1.pendingClose ≠ some p
      rw [hpc]
      by_cases hwa : wa = true
      · rw [if_pos hwa]
        intro hc
        injection hc with hc2
        have := ha.1
        omega
      · rw [if_neg hwa]
        exact ha.2.1
    · show (st.openGui d wa bpi).1.trace.any (fun e => e.resolvesId p) = false
      rw [ht]
      refine any_resolvesId_append_false _ _ _ ha.2.2 ?_
      intro q dd hmem
      have := hq q dd hmem
      have := ha.1
      omega
  | opClose d =>
    obtain ⟨hn, hpc, tail, ht, hq⟩ := closeGui_fields st d
    refine ⟨?_, ?_, ?_⟩
    · show p < (st.closeGui d).nextPromiseId
      rw [hn]
      exact ha.1
    · show (st.closeGui d).pendingClose ≠ some p
      rw [hpc]
      exact ha.2.1
    · show (st.closeGui d).trace.any (fun e => e.resolvesId p) = false
      rw [ht]
      refine any_resolvesId_append_false _ _ _ ha.2.2 ?_
      intro q dd hmem
      have := hq q dd hmem
      intro hqp
      exact ha.2.1 (by rw [← hqp]; exact this)

/-- Abandonment persists through any sequence of further operations. -/
lemma abandoned_runOps (ops : List GuiOp) :
    ∀ (st : GuiState) (p : Nat), st.Good → Abandoned st p →
      Abandoned (st.runOps ops) p := by
  induction ops with
  | nil => intro st p _ ha; exact ha
  | cons op rest ih =>
    intro st p hg ha
    exact ih _ _ (good_step st hg op) (abandoned_step st p hg ha op)

/-- Resolving an unresolved promise records the resolution. -/
lemma resolvePromise_of_not_resolved (st : GuiState) (p : Nat) (d : Option GuiData)
    (h : st.isResolved p = false) :
    resolvePromise st p d = { st with trace := st.trace ++ [GuiEvent.resolve p d] } := by
  simp [resolvePromise, h]

/-- C9: a second waiting open before the first resolves returns a
distinct promise and silently installs itself as the only pending
resolver; the first promise is unresolved, the following close resolves
only the second promise, and no sequence of further operations can ever
resolve the first. -/
theorem gui_single_pending_slot (st : GuiState) (hg : st.Good)
    (d1 d2 d3 : Option GuiData) (b1 b2 : Bool) :
    ((st.openGui d1 true b1).2 ≠ ((st.openGui d1 true b1).1.openGui d2 true b2).2) ∧
    (((st.openGui d1 true b1).1.openGui d2 true b2).1.pendingClose =
      some ((st.openGui d1 true b1).1.openGui d2 true b2).2) ∧
    (((st.openGui d1 true b1).1.openGui d2 true b2).1.isResolved
      (st.openGui d1 true b1).2 = false) ∧
    ((((st.openGui d1 true b1).1.openGui d2 true b2).1.closeGui d3).isResolved
      ((st.openGui d1 true b1).1.openGui d2 true b2).2 = true) ∧
    (GuiEvent.resolve ((st.openGui d1 true b1).1.openGui d2 true b2).2 d3 ∈
      (((st.openGui d1 true b1).1.openGui d2 true b2).1.closeGui d3).trace) ∧
    (∀ ops : List GuiOp,
      ((((st.openGui d1 true b1).1.openGui d2 true b2).1).runOps ops).isResolved
        (st.openGui d1 true b1).2 = false) := by
  have hunres1 : ((st.openGui d1 true b1).1.openGui d2 true b2).1.isResolved
      (st.openGui d1 true b1).2 = false := by
    show ((st.trace ++ [GuiEvent.guiOpen st.id d1]) ++
        [GuiEvent.guiOpen st.id d2]).any
      (fun e => e.resolvesId st.nextPromiseId) = false
    apply any_resolvesId_append_false
    · apply any_resolvesId_append_false
      · exact isResolved_false_of_lt st st.nextPromiseId hg.1
      · intro q dd h
        simp at h
    · intro q dd h
      simp at h
  have hunres2 :
      (({ st with
          nextPromiseId := st.nextPromiseId + 1 + 1,
          trace := (st.trace ++ [GuiEvent.guiOpen st.id d1]) ++
            [GuiEvent.guiOpen st.id d2],
          blockPlayerInput := b2,
          canMove := if b2 then 0 else (if b1 then 0 else st.canMove),
          pendingClose := some (st.nextPromiseId + 1) } : GuiState).closeGui d3) =
      { st with
          nextPromiseId := st.nextPromiseId + 1 + 1,
          trace := (((st.trace ++ [GuiEvent.guiOpen st.id d1]) ++
            [GuiEvent.guiOpen st.id d2]) ++ [GuiEvent.guiExit st.id]) ++
            [GuiEvent.resolve (st.nextPromiseId + 1) d3],
          blockPlayerInput := b2,
          canMove := if b2 then 1 else (if b2 then 0 else (if b1 then 0 else st.canMove)),
          pendingClose := some (st.nextPromiseId + 1) } := by
    rw [closeGui_some _ d3 (st.nextPromiseId + 1) rfl]
    rw [resolvePromise_of_not_resolved]
    show (((st.trace ++ [GuiEvent.guiOpen st.id d1]) ++
        [GuiEvent.guiOpen st.id d2]) ++ [GuiEvent.guiExit st.id]).any
      (fun e => e.resolvesId (st.nextPromiseId + 1)) = false
    apply any_resolvesId_append_false
    · apply any_resolvesId_append_false
      · apply any_resolvesId_append_false
        · apply isResolved_false_of_lt st
          intro q dd hq
          have := hg.1 q dd hq
          omega
        · intro q dd h
          simp at h
      · intro q dd h
        simp at h
    · intro q dd h
      simp at h
  refine ⟨?_, rfl, hunres1, ?_, ?_, ?_⟩
  · show st.nextPromiseId ≠ st.nextPromiseId + 1
    omega
  · show (({ st with
        nextPromiseId := st.nextPromiseId + 1 + 1,
        trace := (st.trace ++ [GuiEvent.guiOpen st.id d1]) ++
          [GuiEvent.guiOpen st.id d2],
        blockPlayerInput := b2,
        canMove := if b2 then 0 else (if b1 then 0 else st.canMove),
        pendingClose := some (st.nextPromiseId + 1) } : GuiState).closeGui d3).isResolved
      (st.nextPromiseId + 1) = true
    rw [hunres2]
    simp [GuiState.isResolved, GuiEvent.resolvesId]
  · show GuiEvent.resolve (st.nextPromiseId + 1) d3 ∈
      (({ st with
          nextPromiseId := st.nextPromiseId + 1 + 1,
          trace := (st.trace ++ [GuiEvent.guiOpen st.id d1]) ++
            [GuiEvent.guiOpen st.id d2],
          blockPlayerInput := b2,
          canMove := if b2 then 0 else (if b1 then 0 else st.canMove),
          pendingClose := some (st.nextPromiseId + 1) } : GuiState).closeGui d3).trace
    rw [hunres2]
    simp
  · intro ops
    have g1 : ((st.openGui d1 true b1).1).Good :=
      good_step st hg (GuiOp.opOpen d1 true b1)
    have g2 : (((st.openGui d1 true b1).1.openGui d2 true b2).1).Good :=
      good_step _ g1 (GuiOp.opOpen d2 true b2)
    have hab : Abandoned (((st.openGui d1 true b1).1.openGui d2 true b2).1)
        ((st.openGui d1 true b1).2) := by
      refine ⟨?_, ?_, hunres1⟩
      · show st.nextPromiseId < st.nextPromiseId + 1 + 1
        omega
      · show some (st.nextPromiseId + 1) ≠ some st.nextPromiseId
        intro hc
        injection hc with hc2
        omega
    exact (abandoned_runOps ops _ _ g2 hab).2.2

/-- Witness for C9: a fresh session, two waiting opens, then a close and
an arbitrary further close. -/
theorem gui_single_pending_slot_witness :
    demoGui.Good ∧
    (((demoGui.openGui (some "first") true false).2 ≠
        ((demoGui.openGui (some "first") true false).1.openGui
          (some "second") true false).2) ∧
      (((demoGui.openGui (some "first") true false).1.openGui
          (some "second") true false).1.pendingClose =
        some ((demoGui.openGui (some "first") true false).1.openGui
          (some "second") true false).2) ∧
      (((demoGui.openGui (some "first") true false).1.openGui
          (some "second") true false).1.isResolved
        (demoGui.openGui (some "first") true false).2 = false) ∧
      ((((demoGui.openGui (some "first") true false).1.openGui
          (some "second") true false).1.closeGui (some "answer")).isResolved
        ((demoGui.openGui (some "first") true false).1.openGui
          (some "second") true false).2 = true) ∧
      (GuiEvent.resolve ((demoGui.openGui (some "first") true false).1.openGui
          (some "second") true false).2 (some "answer") ∈
        (((demoGui.openGui (some "first") true false).1.openGui
          (some "second") true false).1.closeGui (some "answer")).trace) ∧
      (∀ ops : List GuiOp,
        ((((demoGui.openGui (some "first") true false).1.openGui
            (some "second") true false).1).runOps ops).isResolved
          (demoGui.openGui (some "first") true false).2 = false)) := by
  have hg : demoGui.Good := by
    constructor
    · intro p d h
      simp [demoGui] at h
    · intro p h
      simp [demoGui] at h
  exact ⟨hg, gui_single_pending_slot demoGui hg (some "first") (some "second")
    (some "answer") false false⟩

end RpgJS
